import Mathlib

/-!
Verification of the comment-coordination module (`src/comments.js`) of
tachometer-reporter-action.

The module coordinates many concurrently-running jobs onto a single shared
GitHub issue comment.  We give a shallow embedding: the external GitHub
client is an oracle assigning a (possibly failing) response to each
successive store call, JavaScript exceptions become the `Except` component of
a state-and-error monad `M`, and the mutable `context.id` field, the log, the
timer and the sequence of issued store calls are threaded through an explicit
`Sys` state.  Each Lean definition is translated directly from the
correspondingly named JavaScript function.
-/

/-- A GitHub issue comment as used by the module: its id, its body text and
the `user.type` field of its author (`"Bot"` for automated authors). -/
structure Comment where
  id : Nat
  body : String
  userType : String
deriving DecidableEq, Repr

deriving instance DecidableEq for Except

/-- The immutable part of the `CommentContext` object built by
`createCommentContext`.  The mutable `id` field (initially `null`) lives in
the system state `Sys` as `ctxId`; the derived `footerRe`/`matches` members
are the function `matchesComment` below. -/
structure CommentContext where
  owner : String
  repo : String
  issueNumber : Nat
  footer : String
  delayFactor : Nat
deriving DecidableEq, Repr

/-- The `context` argument of `createCommentContext` (repository and issue
coordinates extracted from the GitHub action context). -/
structure GitHubActionContext where
  owner : String
  repo : String
  issueNumber : Nat
deriving DecidableEq, Repr

/-- The `workflowInfo` argument of `createCommentContext`. -/
structure WorkflowRunInfo where
  workflowRunsHtmlUrl : String
  workflowName : String
  jobIndex : Nat
deriving DecidableEq, Repr

/-- One logger call.  The JavaScript logger takes debug payloads lazily; we
record the rendered message. -/
inductive LogEvent where
  | startGroup (msg : String)
  | endGroup
  | info (msg : String)
  | warn (msg : String)
  | debug (msg : String)
deriving DecidableEq, Repr

/-- One store operation issued to the GitHub client, with its arguments. -/
inductive StoreCall where
  | getById (id : Nat)
  | list (issueNumber : Nat)
  | create (issueNumber : Nat) (body : String)
  | update (id : Nat) (body : String)
deriving DecidableEq, Repr

/-- The external store's behaviour: for every operation, the stream of
responses it will give to the successive calls of that operation.  A
`Except.error` response models the API call throwing. -/
structure Oracle where
  getByIdR : List (Except String Comment)
  listR : List (Except String (List Comment))
  createR : List (Except String Comment)
  updateR : List (Except String Unit)
deriving DecidableEq, Repr

/-- The whole system state: the oracle still to be consumed, the mutable
`context.id` field, the log, the sleeps performed and the store calls
issued so far. -/
structure Sys where
  oracle : Oracle
  ctxId : Option Nat
  log : List LogEvent
  sleeps : List Nat
  calls : List StoreCall
deriving DecidableEq, Repr

/-- Whether `pat` occurs as a contiguous character run inside `l`. -/
def charsContain (pat : List Char) : List Char → Bool
  | [] => pat.isEmpty
  | c :: rest => pat.isPrefixOf (c :: rest) || charsContain pat rest

/-- JavaScript `haystack.includes(pat)`: substring containment. -/
def jsIncludes (s pat : String) : Bool := charsContain pat.data s.data

/-- JavaScript `String.prototype.trim`: strip whitespace from both ends.
(Defined on the character list so that it is fully executable.) -/
def jsTrim (s : String) : String :=
  String.mk (((s.data.dropWhile Char.isWhitespace).reverse.dropWhile Char.isWhitespace).reverse)

/-- JS truthiness of the nullable numeric `context.id` field, as tested by
`if (context.id)` in `readComment`: `null` and `0` are falsy. -/
def truthyId : Option Nat → Bool
  | none => false
  | some n => n != 0

/-- The `matches(c)` closure installed by `createCommentContext`:
`c.user.type === "Bot" && footerRe.test(c.body)` where
`footerRe = new RegExp(escapeRe(footer.trim()))`.  Since the pattern is a
regex-escaped literal, the regex test is containment of the trimmed footer
as a substring of the body. -/
def matchesComment (ctx : CommentContext) (c : Comment) : Bool :=
  c.userType == "Bot" && jsIncludes c.body (jsTrim ctx.footer)

/-- `createCommentContext(context, workflowInfo)`: builds the coordination
context, including the footer template string. -/
def createCommentContext (gctx : GitHubActionContext) (wf : WorkflowRunInfo) : CommentContext :=
  { owner := gctx.owner
    repo := gctx.repo
    issueNumber := gctx.issueNumber
    footer := "\n\n<sub><a href=\"https://github.com/andrewiggins/tachometer-reporter-action\" target=\"_blank\">tachometer-reporter-action</a> for <a href=\"" ++ wf.workflowRunsHtmlUrl ++ "\" target=\"_blank\">" ++ wf.workflowName ++ "</a></sub>"
    delayFactor := wf.jobIndex }

/-- The monad of the embedded JavaScript: state `Sys` plus exceptions. -/
def M (α : Type) : Type := Sys → Except String α × Sys

def M.pure {α : Type} (a : α) : M α := fun s => (Except.ok a, s)

def M.bind {α β : Type} (m : M α) (f : α → M β) : M β := fun s =>
  match m s with
  | (Except.ok a, s1) => f a s1
  | (Except.error e, s1) => (Except.error e, s1)

instance monadM : Monad M where
  pure := M.pure
  bind := M.bind

/-- A JavaScript `throw`. -/
def M.throwErr {α : Type} (e : String) : M α := fun s => (Except.error e, s)

/-- A JavaScript `try { m } catch (e) { h e }`: state changes made before
the throw (logs, issued calls, consumed responses) persist. -/
def M.tryCatch {α : Type} (m : M α) (h : String → M α) : M α := fun s =>
  match m s with
  | (Except.ok a, s1) => (Except.ok a, s1)
  | (Except.error e, s1) => h e s1

def M.get : M Sys := fun s => (Except.ok s, s)

def M.modifyS (f : Sys → Sys) : M Unit := fun s => (Except.ok (), f s)

def pushLog (s : Sys) (e : LogEvent) : Sys := { s with log := s.log ++ [e] }

def pushCall (s : Sys) (c : StoreCall) : Sys := { s with calls := s.calls ++ [c] }

def pushSleep (s : Sys) (n : Nat) : Sys := { s with sleeps := s.sleeps ++ [n] }

def logEv (e : LogEvent) : M Unit := fun s => (Except.ok (), pushLog s e)

/-- `await sleep(ms)`: recorded in the state, never fails. -/
def sleep (ms : Nat) : M Unit := fun s => (Except.ok (), pushSleep s ms)

def popGetById (s : Sys) : Sys :=
  { s with oracle := { s.oracle with getByIdR := s.oracle.getByIdR.tail } }

def popList (s : Sys) : Sys :=
  { s with oracle := { s.oracle with listR := s.oracle.listR.tail } }

def popCreate (s : Sys) : Sys :=
  { s with oracle := { s.oracle with createR := s.oracle.createR.tail } }

def popUpdate (s : Sys) : Sys :=
  { s with oracle := { s.oracle with updateR := s.oracle.updateR.tail } }

/-- `await github.issues.getComment(...)`: records the call, consumes the
oracle's next response for this operation, throws on an error response. -/
def ghGetComment (cid : Nat) : M Comment := fun s =>
  let s1 := pushCall s (StoreCall.getById cid)
  match s1.oracle.getByIdR.head? with
  | some (Except.ok c) => (Except.ok c, popGetById s1)
  | some (Except.error e) => (Except.error e, popGetById s1)
  | none => (Except.error "no response", popGetById s1)

/-- `await github.issues.listComments(...)`: first page of comments, in
most-recent-last source order. -/
def ghListComments (issueNumber : Nat) : M (List Comment) := fun s =>
  let s1 := pushCall s (StoreCall.list issueNumber)
  match s1.oracle.listR.head? with
  | some (Except.ok l) => (Except.ok l, popList s1)
  | some (Except.error e) => (Except.error e, popList s1)
  | none => (Except.error "no response", popList s1)

/-- `await github.issues.createComment(...)`. -/
def ghCreateComment (issueNumber : Nat) (body : String) : M Comment := fun s =>
  let s1 := pushCall s (StoreCall.create issueNumber body)
  match s1.oracle.createR.head? with
  | some (Except.ok c) => (Except.ok c, popCreate s1)
  | some (Except.error e) => (Except.error e, popCreate s1)
  | none => (Except.error "no response", popCreate s1)

/-- `await github.issues.updateComment(...)`. -/
def ghUpdateComment (cid : Nat) (body : String) : M Unit := fun s =>
  let s1 := pushCall s (StoreCall.update cid body)
  match s1.oracle.updateR.head? with
  | some (Except.ok _) => (Except.ok (), popUpdate s1)
  | some (Except.error e) => (Except.error e, popUpdate s1)
  | none => (Except.error "no response", popUpdate s1)

/-- Log message of the comment-scanning loop's per-element debug line. -/
def msgTesting (c : Comment) : LogEvent :=
  LogEvent.debug ("Testing if footer pattern matches the following by \"" ++ c.userType ++ "\":\n" ++ c.body ++ "\n\n")

def msgFound (c : Comment) : LogEvent :=
  LogEvent.info ("Found comment! (id: " ++ toString c.id ++ ")")

def msgFoundDebug (c : Comment) : LogEvent :=
  LogEvent.debug ("Found comment: " ++ c.body)

def msgReading (cid : Nat) : LogEvent :=
  LogEvent.info ("Reading comment " ++ toString cid ++ "...")

def msgTryingToFind : LogEvent :=
  LogEvent.info "Trying to find matching comment..."

def msgReadError (e : String) : LogEvent :=
  LogEvent.warn ("Error trying to read comments: " ++ e)

def msgUpdatingBody (cid : Nat) : LogEvent :=
  LogEvent.info ("Updating comment body (id: " ++ toString cid ++ ")...")

def msgUpdatedBody (body : String) : LogEvent :=
  LogEvent.debug ("Updated comment body: " ++ body)

def msgCreatingNew : LogEvent :=
  LogEvent.info "Creating new comment..."

def msgNewBody (body : String) : LogEvent :=
  LogEvent.debug ("New comment body: " ++ body)

def msgStartLock : LogEvent :=
  LogEvent.startGroup "Initiating comment lock..."

def msgCommentFound : LogEvent :=
  LogEvent.info "Comment found. Doing nothing."

def msgWaiting (delay : Nat) : LogEvent :=
  LogEvent.info ("Comment not found. Waiting " ++ toString delay ++ "ms before trying again...")

def msgAfterDelay : LogEvent :=
  LogEvent.info "After delay, comment not found. Creating comment..."

def msgUpdatingPR : LogEvent :=
  LogEvent.info "Updating PR comment:"

def msgErrUpdating (e : String) : LogEvent :=
  LogEvent.info ("Error updating comment: " ++ e)

def msgErrCreating (e : String) : LogEvent :=
  LogEvent.info ("Error creating comment: " ++ e)

/-- The body of `readComment`'s reverse for-loop
`for (let i = comments.length; i--; )`: the argument list is the listing
already reversed, the loop logs a debug line per scanned comment and breaks
at the first comment satisfying `context.matches`. -/
def scanComments (ctx : CommentContext) : List Comment → M (Option Comment)
  | [] => M.pure none
  | c :: rest => do
    logEv (msgTesting c)
    if matchesComment ctx c then do
      logEv (msgFound c)
      logEv (msgFoundDebug c)
      M.pure (some c)
    else
      scanComments ctx rest

/-- `readComment(github, context, logger)`: by-id fast path when
`context.id` is truthy, otherwise a reverse scan of the first listing page;
the whole body is wrapped in `try ... catch` which logs a warning and falls
through to returning the still-undefined `comment`. -/
def readComment (ctx : CommentContext) : M (Option Comment) :=
  M.tryCatch
    (do
      let s ← M.get
      if truthyId s.ctxId then do
        logEv (msgReading (s.ctxId.getD 0))
        let c ← ghGetComment (s.ctxId.getD 0)
        M.pure (some c)
      else do
        logEv msgTryingToFind
        let comments ← ghListComments ctx.issueNumber
        scanComments ctx comments.reverse)
    (fun e => do
      logEv (msgReadError e)
      logEv (LogEvent.debug e)
      M.pure none)

/-- `updateComment(github, context, body, logger)`: throws a precondition
error when `context.id == null`, otherwise issues the single full-body
update. -/
def updateComment (_ctx : CommentContext) (body : String) : M Unit := do
  let s ← M.get
  match s.ctxId with
  | none => M.throwErr "Cannot update comment if \"context.id\" is null"
  | some cid => do
    logEv (msgUpdatingBody cid)
    ghUpdateComment cid body
    logEv (msgUpdatedBody body)

/-- `createComment(github, context, body, logger)`. -/
def createComment (ctx : CommentContext) (body : String) : M Comment := do
  logEv msgCreatingNew
  logEv (msgNewBody body)
  ghCreateComment ctx.issueNumber body

/-- The resolve-or-create part of `initiateCommentLock`: first read, on
absence wait `delayFactor * 100` ms, second read, on absence create with
`getInitialBody(null)`. -/
def lockResolve (ctx : CommentContext) (getInitialBody : Option Comment → String) : M Comment := do
  let c1 ← readComment ctx
  match c1 with
  | some c => do
    logEv msgCommentFound
    M.pure c
  | none => do
    logEv (msgWaiting (ctx.delayFactor * 100))
    sleep (ctx.delayFactor * 100)
    let c2 ← readComment ctx
    match c2 with
    | some c => do
      logEv msgCommentFound
      M.pure c
    | none => do
      logEv msgAfterDelay
      createComment ctx (getInitialBody none)

/-- `initiateCommentLock(github, context, getInitialBody, logger)`: the
staggered creation protocol; on normal return sets `context.id` to the
adopted or created comment's id. -/
def initiateCommentLock (ctx : CommentContext) (getInitialBody : Option Comment → String) : M Comment := do
  logEv msgStartLock
  let comment ← lockResolve ctx getInitialBody
  logEv LogEvent.endGroup
  M.modifyS (fun s => { s with ctxId := some comment.id })
  M.pure comment

/-- `acquireCommentLock`: delegates to `initiateCommentLock` (the stronger
lock protocol sketched in its comments was never implemented). -/
def acquireCommentLock (ctx : CommentContext) (getInitialBody : Option Comment → String) : M Comment :=
  initiateCommentLock ctx getInitialBody

/-- The two body-fixing lines of `postOrUpdateComment`'s update path:
`if (!updatedBody.includes(context.footer)) updatedBody = updatedBody + context.footer`. -/
def computeUpdateBody (ctx : CommentContext) (b : String) : String :=
  if jsIncludes b ctx.footer then b else b ++ ctx.footer

/-- The part of `postOrUpdateComment` after the lock has been acquired:
set `context.id`, try the update (footer appended when missing), and on any
update failure fall back to a create with
`getCommentBody(null) + context.footer` whose own failure is swallowed. -/
def postUpdatePhase (ctx : CommentContext) (getCommentBody : Option Comment → String) (comment : Comment) : M Unit := do
  M.modifyS (fun s => { s with ctxId := some comment.id })
  let held ← M.tryCatch
    (do
      updateComment ctx (computeUpdateBody ctx (getCommentBody (some comment)))
      M.pure true)
    (fun e => do
      logEv (msgErrUpdating e)
      logEv (LogEvent.debug e)
      M.pure false)
  if held then
    M.pure ()
  else
    M.tryCatch
      (do
        let _ ← createComment ctx (getCommentBody none ++ ctx.footer)
        M.pure ())
      (fun e => do
        logEv (msgErrCreating e)
        logEv (LogEvent.debug e)
        M.pure ())

/-- `postOrUpdateComment(github, context, getCommentBody, logger)`: the
orchestrator.  Note that the `acquireCommentLock` call is outside every
`try` block of the function. -/
def postOrUpdateComment (ctx : CommentContext) (getCommentBody : Option Comment → String) : M Unit := do
  logEv msgUpdatingPR
  let comment ← acquireCommentLock ctx getCommentBody
  postUpdatePhase ctx getCommentBody comment

/-- Is a store call a read (by-id fetch or listing fetch)? -/
def isReadCall : StoreCall → Bool
  | StoreCall.getById _ => true
  | StoreCall.list _ => true
  | _ => false

/-- Is a store call a create? -/
def isCreateCall : StoreCall → Bool
  | StoreCall.create _ _ => true
  | _ => false

def readCount (l : List StoreCall) : Nat := (l.filter isReadCall).length

def createCount (l : List StoreCall) : Nat := (l.filter isCreateCall).length

/-! ### Concrete example data for witnesses and counterexamples -/

/-- A small coordination context with footer text `"FOOT"`. -/
def exCtx : CommentContext :=
  { owner := "octo", repo := "repo", issueNumber := 5, footer := "FOOT", delayFactor := 2 }

def exBot : Comment := { id := 7, body := "hello FOOT", userType := "Bot" }

def exBot2 : Comment := { id := 9, body := "newer FOOT", userType := "Bot" }

def exHuman : Comment := { id := 8, body := "hello FOOT", userType := "User" }

/-- A bot comment whose id is the number `0` (falsy in JavaScript). -/
def exZero : Comment := { id := 0, body := "FOOT", userType := "Bot" }

def emptyOracle : Oracle := { getByIdR := [], listR := [], createR := [], updateR := [] }

/-- A fresh starting state (no resolved id, empty log/trace) over an oracle. -/
def baseSys (o : Oracle) : Sys := { oracle := o, ctxId := none, log := [], sleeps := [], calls := [] }

/-- A constant body producer. -/
def bodyFn (b : String) : Option Comment → String := fun _ => b

def exG : GitHubActionContext := { owner := "octo", repo := "repo", issueNumber := 5 }

def exW : WorkflowRunInfo :=
  { workflowRunsHtmlUrl := "http://runs", workflowName := "CI", jobIndex := 2 }

/-- A human-authored comment whose body contains the full footer text. -/
def exHumanFooter : Comment :=
  { id := 11, body := (createCommentContext exG exW).footer, userType := "User" }

/-- C1 counterexample store: both listings empty, the create throws. -/
def c1sys : Sys :=
  baseSys { emptyOracle with listR := [Except.ok [], Except.ok []], createR := [Except.error "boom"] }

/-- C1 witness store: the first listing already holds the bot comment. -/
def w1sys : Sys :=
  baseSys { emptyOracle with listR := [Except.ok [exBot]], updateR := [Except.ok ()] }

/-- C2 store: adoption succeeds, the update throws, the create succeeds. -/
def c2sys : Sys :=
  baseSys { emptyOracle with listR := [Except.ok [exBot]], updateR := [Except.error "ue"], createR := [Except.ok exBot] }

/-- C2 witness store: the update throws. -/
def c2wsys : Sys := baseSys { emptyOracle with updateR := [Except.error "ue"] }

/-- C3/C10 witness store: both listings empty, the create succeeds. -/
def w3sys : Sys :=
  baseSys { emptyOracle with listR := [Except.ok [], Except.ok []], createR := [Except.ok exBot] }

/-- C5 witness store: one listing page with two matching bot comments. -/
def w5sys : Sys := baseSys { emptyOracle with listR := [Except.ok [exBot, exBot2]] }

/-- C6 witness store: resolved id set, the by-id fetch throws. -/
def w6sys : Sys :=
  { baseSys { emptyOracle with getByIdR := [Except.error "boom"] } with ctxId := some 9 }

/-- C7 witness state without a resolved id. -/
def w7none : Sys := baseSys emptyOracle

/-- C7 witness state with resolved id 7 and a successful update response. -/
def w7some : Sys :=
  { baseSys { emptyOracle with updateR := [Except.ok ()] } with ctxId := some 7 }

/-- C8 counterexample store: both listings empty, the create returns a
comment with id `0`, a third listing page for the subsequent locate. -/
def c8sys : Sys :=
  baseSys { emptyOracle with listR := [Except.ok [], Except.ok [], Except.ok []], createR := [Except.ok exZero] }

/-- C8 witness store: adoption from the first listing page. -/
def w8sys : Sys := baseSys { emptyOracle with listR := [Except.ok [exBot]] }

/-- C8/C9 witness state: resolved id 7, by-id fetch yields a human comment. -/
def w9sys : Sys :=
  { baseSys { emptyOracle with getByIdR := [Except.ok exHuman] } with ctxId := some 7 }

/-- C9 counterexample state: resolved id `0` (set but falsy), a by-id
response ready, an empty listing page. -/
def c9sys : Sys :=
  { baseSys { emptyOracle with getByIdR := [Except.ok exHuman], listR := [Except.ok []] } with ctxId := some 0 }

/-! ## Reduction lemmas for the monad and the primitive operations -/

theorem M.bind_eq {α β : Type} (m : M α) (f : α → M β) : m >>= f = M.bind m f := rfl

theorem M.pure_eq {α : Type} (a : α) : (pure a : M α) = M.pure a := rfl

theorem M.bind_ok {α β : Type} {m : M α} {f : α → M β} {s s1 : Sys} {a : α}
    (h : m s = (Except.ok a, s1)) : M.bind m f s = f a s1 := by
  unfold M.bind; rw [h]

theorem M.bind_error {α β : Type} {m : M α} {f : α → M β} {s s1 : Sys} {e : String}
    (h : m s = (Except.error e, s1)) : M.bind m f s = (Except.error e, s1) := by
  unfold M.bind; rw [h]

theorem M.tryCatch_ok {α : Type} {m : M α} {h : String → M α} {s s1 : Sys} {a : α}
    (hm : m s = (Except.ok a, s1)) : M.tryCatch m h s = (Except.ok a, s1) := by
  unfold M.tryCatch; rw [hm]

theorem M.tryCatch_error {α : Type} {m : M α} {h : String → M α} {s s1 : Sys} {e : String}
    (hm : m s = (Except.error e, s1)) : M.tryCatch m h s = h e s1 := by
  unfold M.tryCatch; rw [hm]

/-- The scanning loop never touches the oracle, the issued calls, the sleeps
or `context.id`; it returns the first element of its (already reversed)
argument list satisfying the match predicate. -/
theorem scanComments_run (ctx : CommentContext) (l : List Comment) (s : Sys) :
    ∃ lg, scanComments ctx l s =
      (Except.ok (l.find? (matchesComment ctx)), { s with log := s.log ++ lg }) := by
  induction l generalizing s with
  | nil =>
    exact ⟨[], by simp [scanComments, M.pure]⟩
  | cons c rest ih =>
    by_cases hm : matchesComment ctx c
    · refine ⟨[msgTesting c, msgFound c, msgFoundDebug c], ?_⟩
      simp [scanComments, M.bind_eq, M.bind, logEv, pushLog, M.pure, List.find?, hm]
    · obtain ⟨lg, hlg⟩ := ih (pushLog s (msgTesting c))
      refine ⟨msgTesting c :: lg, ?_⟩
      simp only [scanComments, M.bind_eq, M.bind, logEv, hm, List.find?]
      rw [if_neg Bool.false_ne_true, hlg]
      simp [pushLog, hm]

/-- `readComment` never propagates an exception, issues exactly one read
call (by id or listing), never sleeps, never creates or updates, and never
changes `context.id`. -/
theorem readComment_total (ctx : CommentContext) (s : Sys) :
    ∃ v s' rc, readComment ctx s = (Except.ok v, s') ∧ isReadCall rc = true ∧
      s'.calls = s.calls ++ [rc] ∧ s'.sleeps = s.sleeps ∧ s'.ctxId = s.ctxId := by
  cases ht : truthyId s.ctxId with
  | true =>
    cases hg : s.oracle.getByIdR.head? with
    | none =>
      refine ⟨none,
        pushLog (pushLog (popGetById (pushCall (pushLog s (msgReading (s.ctxId.getD 0)))
          (StoreCall.getById (s.ctxId.getD 0)))) (msgReadError "no response"))
          (LogEvent.debug "no response"),
        StoreCall.getById (s.ctxId.getD 0), ?_, rfl, ?_, ?_, ?_⟩ <;>
        simp [readComment, M.tryCatch, M.bind_eq, M.bind, M.get, M.pure, logEv,
          ghGetComment, pushLog, pushCall, popGetById, ht, hg]
    | some r =>
      cases r with
      | ok c =>
        refine ⟨some c,
          popGetById (pushCall (pushLog s (msgReading (s.ctxId.getD 0)))
            (StoreCall.getById (s.ctxId.getD 0))),
          StoreCall.getById (s.ctxId.getD 0), ?_, rfl, ?_, ?_, ?_⟩ <;>
          simp [readComment, M.tryCatch, M.bind_eq, M.bind, M.get, M.pure, logEv,
            ghGetComment, pushLog, pushCall, popGetById, ht, hg]
      | error e =>
        refine ⟨none,
          pushLog (pushLog (popGetById (pushCall (pushLog s (msgReading (s.ctxId.getD 0)))
            (StoreCall.getById (s.ctxId.getD 0)))) (msgReadError e)) (LogEvent.debug e),
          StoreCall.getById (s.ctxId.getD 0), ?_, rfl, ?_, ?_, ?_⟩ <;>
          simp [readComment, M.tryCatch, M.bind_eq, M.bind, M.get, M.pure, logEv,
            ghGetComment, pushLog, pushCall, popGetById, ht, hg]
  | false =>
    cases hg : s.oracle.listR.head? with
    | none =>
      refine ⟨none,
        pushLog (pushLog (popList (pushCall (pushLog s msgTryingToFind)
          (StoreCall.list ctx.issueNumber))) (msgReadError "no response"))
          (LogEvent.debug "no response"),
        StoreCall.list ctx.issueNumber, ?_, rfl, ?_, ?_, ?_⟩ <;>
        simp [readComment, M.tryCatch, M.bind_eq, M.bind, M.get, M.pure, logEv,
          ghListComments, pushLog, pushCall, popList, ht, hg]
    | some r =>
      cases r with
      | error e =>
        refine ⟨none,
          pushLog (pushLog (popList (pushCall (pushLog s msgTryingToFind)
            (StoreCall.list ctx.issueNumber))) (msgReadError e)) (LogEvent.debug e),
          StoreCall.list ctx.issueNumber, ?_, rfl, ?_, ?_, ?_⟩ <;>
          simp [readComment, M.tryCatch, M.bind_eq, M.bind, M.get, M.pure, logEv,
            ghListComments, pushLog, pushCall, popList, ht, hg]
      | ok l =>
        obtain ⟨lg, hlg⟩ := scanComments_run ctx l.reverse
          (popList (pushCall (pushLog s msgTryingToFind) (StoreCall.list ctx.issueNumber)))
        refine ⟨l.reverse.find? (matchesComment ctx),
          { popList (pushCall (pushLog s msgTryingToFind) (StoreCall.list ctx.issueNumber)) with
            log := (popList (pushCall (pushLog s msgTryingToFind)
              (StoreCall.list ctx.issueNumber))).log ++ lg },
          StoreCall.list ctx.issueNumber, ?_, rfl, ?_, ?_, ?_⟩
        · simp only [readComment, M.tryCatch, M.bind_eq, M.bind, M.get, logEv,
            ghListComments, ht, Bool.false_eq_true, if_false]
          simp only [pushLog, pushCall, popList] at hlg ⊢
          rw [hg]
          simp only []
          rw [hlg]
        all_goals simp [pushLog, pushCall, popList]

/-- By-id fast path of `readComment` with a successful response: the fetched
comment is returned as is. -/
theorem readComment_byId_ok {ctx : CommentContext} {s : Sys} {i : Nat} {c : Comment}
    {rest : List (Except String Comment)} (h1 : s.ctxId = some i) (h2 : i ≠ 0)
    (h3 : s.oracle.getByIdR = Except.ok c :: rest) :
    readComment ctx s =
      (Except.ok (some c), popGetById (pushCall (pushLog s (msgReading i)) (StoreCall.getById i))) := by
  have ht : truthyId s.ctxId = true := by simp [truthyId, h1, h2]
  have hg : s.oracle.getByIdR.head? = some (Except.ok c) := by rw [h3]; rfl
  have hi : s.ctxId.getD 0 = i := by rw [h1]; rfl
  simp only [readComment, M.tryCatch, M.bind_eq, M.bind, M.get, logEv,
    ghGetComment, ht, if_true, hi]
  simp only [pushLog, pushCall, popGetById]
  rw [hg]
  simp [M.pure]

/-- By-id fast path of `readComment` with a failing response: the error is
caught, a warning is logged, and `absent` is returned. -/
theorem readComment_byId_error {ctx : CommentContext} {s : Sys} {i : Nat} {e : String}
    {rest : List (Except String Comment)} (h1 : s.ctxId = some i) (h2 : i ≠ 0)
    (h3 : s.oracle.getByIdR = Except.error e :: rest) :
    readComment ctx s =
      (Except.ok none,
        pushLog (pushLog (popGetById (pushCall (pushLog s (msgReading i)) (StoreCall.getById i)))
          (msgReadError e)) (LogEvent.debug e)) := by
  have ht : truthyId s.ctxId = true := by simp [truthyId, h1, h2]
  have hg : s.oracle.getByIdR.head? = some (Except.error e) := by rw [h3]; rfl
  have hi : s.ctxId.getD 0 = i := by rw [h1]; rfl
  simp only [readComment, M.tryCatch, M.bind_eq, M.bind, M.get, logEv,
    ghGetComment, ht, if_true, hi]
  simp only [pushLog, pushCall, popGetById]
  rw [hg]
  simp [M.pure, logEv, pushLog]

/-- Listing path of `readComment` with a successful first-page response:
one listing fetch, then a scan of the page from its last element to its
first, returning the first match. -/
theorem readComment_list_ok {ctx : CommentContext} {s : Sys} {l : List Comment}
    {rest : List (Except String (List Comment))} (h1 : truthyId s.ctxId = false)
    (h2 : s.oracle.listR = Except.ok l :: rest) :
    ∃ lg, readComment ctx s =
      (Except.ok (l.reverse.find? (matchesComment ctx)),
        { popList (pushCall (pushLog s msgTryingToFind) (StoreCall.list ctx.issueNumber)) with
          log := (popList (pushCall (pushLog s msgTryingToFind)
            (StoreCall.list ctx.issueNumber))).log ++ lg }) := by
  have hg : s.oracle.listR.head? = some (Except.ok l) := by rw [h2]; rfl
  obtain ⟨lg, hlg⟩ := scanComments_run ctx l.reverse
    (popList (pushCall (pushLog s msgTryingToFind) (StoreCall.list ctx.issueNumber)))
  refine ⟨lg, ?_⟩
  simp only [readComment, M.tryCatch, M.bind_eq, M.bind, M.get, logEv,
    ghListComments, h1, Bool.false_eq_true, if_false]
  simp only [pushLog, pushCall, popList] at hlg ⊢
  rw [hg]
  simp only []
  rw [hlg]

/-- Listing path of `readComment` with a failing response: the error is
caught, a warning is logged, and `absent` is returned. -/
theorem readComment_list_error {ctx : CommentContext} {s : Sys} {e : String}
    {rest : List (Except String (List Comment))} (h1 : truthyId s.ctxId = false)
    (h2 : s.oracle.listR = Except.error e :: rest) :
    readComment ctx s =
      (Except.ok none,
        pushLog (pushLog (popList (pushCall (pushLog s msgTryingToFind)
          (StoreCall.list ctx.issueNumber))) (msgReadError e)) (LogEvent.debug e)) := by
  have hg : s.oracle.listR.head? = some (Except.error e) := by rw [h2]; rfl
  simp only [readComment, M.tryCatch, M.bind_eq, M.bind, M.get, logEv,
    ghListComments, h1, Bool.false_eq_true, if_false]
  simp only [pushLog, pushCall, popList]
  rw [hg]
  simp [M.pure, logEv, pushLog]

/-- A successful create issues exactly the one create call with the given
body and returns the store's comment. -/
theorem createComment_ok {ctx : CommentContext} {s : Sys} {c : Comment} {b : String}
    {rest : List (Except String Comment)} (h : s.oracle.createR = Except.ok c :: rest) :
    createComment ctx b s =
      (Except.ok c, popCreate (pushCall (pushLog (pushLog s msgCreatingNew) (msgNewBody b))
        (StoreCall.create ctx.issueNumber b))) := by
  have hg : s.oracle.createR.head? = some (Except.ok c) := by rw [h]; rfl
  simp only [createComment, M.bind_eq, M.bind, logEv, ghCreateComment]
  simp only [pushLog, pushCall, popCreate]
  rw [hg]

/-- A failing create propagates its exception out of `createComment`. -/
theorem createComment_error {ctx : CommentContext} {s : Sys} {e : String} {b : String}
    {rest : List (Except String Comment)} (h : s.oracle.createR = Except.error e :: rest) :
    createComment ctx b s =
      (Except.error e, popCreate (pushCall (pushLog (pushLog s msgCreatingNew) (msgNewBody b))
        (StoreCall.create ctx.issueNumber b))) := by
  have hg : s.oracle.createR.head? = some (Except.error e) := by rw [h]; rfl
  simp only [createComment, M.bind_eq, M.bind, logEv, ghCreateComment]
  simp only [pushLog, pushCall, popCreate]
  rw [hg]

/-- First read finds a comment: it is adopted, nothing else happens. -/
theorem lockResolve_found {ctx : CommentContext} {gib : Option Comment → String}
    {s s1 : Sys} {c : Comment} (h : readComment ctx s = (Except.ok (some c), s1)) :
    lockResolve ctx gib s = (Except.ok c, pushLog s1 msgCommentFound) := by
  simp only [lockResolve, M.bind_eq]
  rw [M.bind_ok h]
  simp [M.bind_eq, M.bind, logEv, M.pure]

/-- First read absent, second read finds: the caller sleeps
`delayFactor * 100` ms and adopts the comment found on re-read. -/
theorem lockResolve_second {ctx : CommentContext} {gib : Option Comment → String}
    {s s1 s2 : Sys} {c : Comment} (h1 : readComment ctx s = (Except.ok none, s1))
    (h2 : readComment ctx (pushSleep (pushLog s1 (msgWaiting (ctx.delayFactor * 100)))
      (ctx.delayFactor * 100)) = (Except.ok (some c), s2)) :
    lockResolve ctx gib s = (Except.ok c, pushLog s2 msgCommentFound) := by
  simp only [lockResolve, M.bind_eq]
  rw [M.bind_ok h1]
  simp only [M.bind_eq]
  rw [show ∀ k : Unit → M Comment, M.bind (logEv (msgWaiting (ctx.delayFactor * 100))) k s1 =
    k () (pushLog s1 (msgWaiting (ctx.delayFactor * 100))) from fun k => rfl]
  rw [show ∀ k : Unit → M Comment, M.bind (sleep (ctx.delayFactor * 100)) k
    (pushLog s1 (msgWaiting (ctx.delayFactor * 100))) =
    k () (pushSleep (pushLog s1 (msgWaiting (ctx.delayFactor * 100))) (ctx.delayFactor * 100))
    from fun k => rfl]
  rw [M.bind_ok h2]
  simp [M.bind_eq, M.bind, logEv, M.pure]

/-- Both reads absent: the lock phase falls through to
`createComment(..., getInitialBody(null))`. -/
theorem lockResolve_create {ctx : CommentContext} {gib : Option Comment → String}
    {s s1 s2 : Sys} (h1 : readComment ctx s = (Except.ok none, s1))
    (h2 : readComment ctx (pushSleep (pushLog s1 (msgWaiting (ctx.delayFactor * 100)))
      (ctx.delayFactor * 100)) = (Except.ok none, s2)) :
    lockResolve ctx gib s = createComment ctx (gib none) (pushLog s2 msgAfterDelay) := by
  simp only [lockResolve, M.bind_eq]
  rw [M.bind_ok h1]
  simp only [M.bind_eq]
  rw [show ∀ k : Unit → M Comment, M.bind (logEv (msgWaiting (ctx.delayFactor * 100))) k s1 =
    k () (pushLog s1 (msgWaiting (ctx.delayFactor * 100))) from fun k => rfl]
  rw [show ∀ k : Unit → M Comment, M.bind (sleep (ctx.delayFactor * 100)) k
    (pushLog s1 (msgWaiting (ctx.delayFactor * 100))) =
    k () (pushSleep (pushLog s1 (msgWaiting (ctx.delayFactor * 100))) (ctx.delayFactor * 100))
    from fun k => rfl]
  rw [M.bind_ok h2]
  simp [M.bind_eq, M.bind, logEv, M.pure]

/-- A normal return of `lockResolve` makes `initiateCommentLock` set
`context.id` to the returned comment's id. -/
theorem initiateCommentLock_ok {ctx : CommentContext} {gib : Option Comment → String}
    {s s1 : Sys} {c : Comment}
    (h : lockResolve ctx gib (pushLog s msgStartLock) = (Except.ok c, s1)) :
    initiateCommentLock ctx gib s =
      (Except.ok c, { pushLog s1 LogEvent.endGroup with ctxId := some c.id }) := by
  simp only [initiateCommentLock, M.bind_eq]
  rw [show ∀ k : Unit → M Comment, M.bind (logEv msgStartLock) k s =
    k () (pushLog s msgStartLock) from fun k => rfl]
  rw [M.bind_ok h]
  simp [M.bind_eq, M.bind, logEv, M.modifyS, M.pure, pushLog]

/-- A throwing `lockResolve` (create failure) propagates out of
`initiateCommentLock`; in particular `context.id` is not set. -/
theorem initiateCommentLock_error {ctx : CommentContext} {gib : Option Comment → String}
    {s s1 : Sys} {e : String}
    (h : lockResolve ctx gib (pushLog s msgStartLock) = (Except.error e, s1)) :
    initiateCommentLock ctx gib s = (Except.error e, s1) := by
  simp only [initiateCommentLock, M.bind_eq]
  rw [show ∀ k : Unit → M Comment, M.bind (logEv msgStartLock) k s =
    k () (pushLog s msgStartLock) from fun k => rfl]
  rw [M.bind_error h]

/-- `updateComment` with a null `context.id` throws its precondition error
before doing anything: the state (store, calls, log) is untouched. -/
theorem updateComment_noId {ctx : CommentContext} {b : String} {s : Sys}
    (h : s.ctxId = none) :
    updateComment ctx b s =
      (Except.error "Cannot update comment if \"context.id\" is null", s) := by
  simp only [updateComment, M.bind_eq, M.bind, M.get, h, M.throwErr]

/-- `updateComment` with a set `context.id` and a successful response:
exactly one update call with the full replacement body. -/
theorem updateComment_some_ok {ctx : CommentContext} {b : String} {s : Sys} {i : Nat}
    {rest : List (Except String Unit)} (h1 : s.ctxId = some i)
    (h2 : s.oracle.updateR = Except.ok () :: rest) :
    updateComment ctx b s =
      (Except.ok (), pushLog (popUpdate (pushCall (pushLog s (msgUpdatingBody i))
        (StoreCall.update i b))) (msgUpdatedBody b)) := by
  have hg : s.oracle.updateR.head? = some (Except.ok ()) := by rw [h2]; rfl
  simp only [updateComment, M.bind_eq, M.bind, M.get, h1, logEv, ghUpdateComment]
  simp only [pushLog, pushCall, popUpdate]
  rw [hg]

/-- `updateComment` with a set `context.id` and a throwing response: the
update call is issued, then the exception propagates. -/
theorem updateComment_some_error {ctx : CommentContext} {b : String} {s : Sys} {i : Nat}
    {e : String} {rest : List (Except String Unit)} (h1 : s.ctxId = some i)
    (h2 : s.oracle.updateR = Except.error e :: rest) :
    updateComment ctx b s =
      (Except.error e, popUpdate (pushCall (pushLog s (msgUpdatingBody i))
        (StoreCall.update i b))) := by
  have hg : s.oracle.updateR.head? = some (Except.error e) := by rw [h2]; rfl
  simp only [updateComment, M.bind_eq, M.bind, M.get, h1, logEv, ghUpdateComment]
  simp only [pushLog, pushCall, popUpdate]
  rw [hg]

/-- After the lock phase has returned a comment, the rest of the
orchestrator never propagates an exception: update errors are caught and
answered by the fallback create, whose errors are swallowed. -/
theorem postUpdatePhase_total (ctx : CommentContext) (gcb : Option Comment → String)
    (comment : Comment) (s : Sys) :
    ∃ s', postUpdatePhase ctx gcb comment s = (Except.ok (), s') := by
  simp only [postUpdatePhase, M.bind_eq]
  rw [show ∀ k : Unit → M Unit, M.bind (M.modifyS fun s => { s with ctxId := some comment.id }) k s =
    k () { s with ctxId := some comment.id } from fun k => rfl]
  rcases hu : updateComment ctx (computeUpdateBody ctx (gcb (some comment)))
    { s with ctxId := some comment.id } with ⟨r, s1⟩
  cases r with
  | ok a =>
    have hbody : M.bind (updateComment ctx (computeUpdateBody ctx (gcb (some comment))))
        (fun x => M.pure true) { s with ctxId := some comment.id } = (Except.ok true, s1) := by
      rw [M.bind_ok hu]; rfl
    have htry : M.tryCatch (M.bind (updateComment ctx (computeUpdateBody ctx (gcb (some comment))))
        (fun x => M.pure true))
        (fun e => M.bind (logEv (msgErrUpdating e)) fun x =>
          M.bind (logEv (LogEvent.debug e)) fun x => M.pure false)
        { s with ctxId := some comment.id } = (Except.ok true, s1) := M.tryCatch_ok hbody
    refine ⟨s1, ?_⟩
    rw [M.bind_ok htry]
    simp [M.pure]
  | error e =>
    have hbody : M.bind (updateComment ctx (computeUpdateBody ctx (gcb (some comment))))
        (fun x => M.pure true) { s with ctxId := some comment.id } = (Except.error e, s1) := by
      rw [M.bind_error hu]
    have htry : M.tryCatch (M.bind (updateComment ctx (computeUpdateBody ctx (gcb (some comment))))
        (fun x => M.pure true))
        (fun e => M.bind (logEv (msgErrUpdating e)) fun x =>
          M.bind (logEv (LogEvent.debug e)) fun x => M.pure false)
        { s with ctxId := some comment.id } =
        (Except.ok false, pushLog (pushLog s1 (msgErrUpdating e)) (LogEvent.debug e)) := by
      rw [M.tryCatch_error hbody]
      simp [M.bind_eq, M.bind, logEv, M.pure]
    rw [M.bind_ok htry]
    simp only [Bool.false_eq_true, if_false]
    rcases hc : createComment ctx (gcb none ++ ctx.footer)
      (pushLog (pushLog s1 (msgErrUpdating e)) (LogEvent.debug e)) with ⟨rc, s2⟩
    cases rc with
    | ok c =>
      have hcb : M.bind (createComment ctx (gcb none ++ ctx.footer)) (fun x => M.pure ())
          (pushLog (pushLog s1 (msgErrUpdating e)) (LogEvent.debug e)) = (Except.ok (), s2) := by
        rw [M.bind_ok hc]; rfl
      refine ⟨s2, ?_⟩
      rw [M.tryCatch_ok hcb]
    | error e2 =>
      have hcb : M.bind (createComment ctx (gcb none ++ ctx.footer)) (fun x => M.pure ())
          (pushLog (pushLog s1 (msgErrUpdating e)) (LogEvent.debug e)) = (Except.error e2, s2) := by
        rw [M.bind_error hc]
      refine ⟨pushLog (pushLog s2 (msgErrCreating e2)) (LogEvent.debug e2), ?_⟩
      rw [M.tryCatch_error hcb]
      simp [M.bind_eq, M.bind, logEv, M.pure]

/-- A read call is never a create call. -/
theorem read_not_create {c : StoreCall} (h : isReadCall c = true) : isCreateCall c = false := by
  cases c <;> simp_all [isReadCall, isCreateCall]

theorem isReadCall_create (n : Nat) (b : String) : isReadCall (StoreCall.create n b) = false := rfl

theorem isCreateCall_create (n : Nat) (b : String) : isCreateCall (StoreCall.create n b) = true := rfl

/-- `createComment` always issues exactly one create call with the given
body (whatever the store answers), sleeps never, and leaves `context.id`
unchanged. -/
theorem createComment_total (ctx : CommentContext) (b : String) (s : Sys) :
    ∃ r s2, createComment ctx b s = (r, s2) ∧
      s2.calls = s.calls ++ [StoreCall.create ctx.issueNumber b] ∧
      s2.sleeps = s.sleeps ∧ s2.ctxId = s.ctxId := by
  cases hg : s.oracle.createR.head? with
  | none =>
    refine ⟨Except.error "no response",
      popCreate (pushCall (pushLog (pushLog s msgCreatingNew) (msgNewBody b))
        (StoreCall.create ctx.issueNumber b)), ?_, ?_, ?_, ?_⟩ <;>
      simp [createComment, M.bind_eq, M.bind, logEv, ghCreateComment,
        pushLog, pushCall, popCreate, hg]
  | some r =>
    cases r with
    | ok c =>
      refine ⟨Except.ok c,
        popCreate (pushCall (pushLog (pushLog s msgCreatingNew) (msgNewBody b))
          (StoreCall.create ctx.issueNumber b)), ?_, ?_, ?_, ?_⟩ <;>
        simp [createComment, M.bind_eq, M.bind, logEv, ghCreateComment,
          pushLog, pushCall, popCreate, hg]
    | error e =>
      refine ⟨Except.error e,
        popCreate (pushCall (pushLog (pushLog s msgCreatingNew) (msgNewBody b))
          (StoreCall.create ctx.issueNumber b)), ?_, ?_, ?_, ?_⟩ <;>
        simp [createComment, M.bind_eq, M.bind, logEv, ghCreateComment,
          pushLog, pushCall, popCreate, hg]

/-- Whatever the store does, one run of the staggered creation protocol
issues at most two read calls and at most one create call. -/
theorem initiateCommentLock_total (ctx : CommentContext) (gib : Option Comment → String)
    (s : Sys) :
    ∃ r s' δ, initiateCommentLock ctx gib s = (r, s') ∧ s'.calls = s.calls ++ δ ∧
      readCount δ ≤ 2 ∧ createCount δ ≤ 1 := by
  obtain ⟨v1, s1, rc1, h1, hrc1, hc1, _, _⟩ := readComment_total ctx (pushLog s msgStartLock)
  have hcalls0 : (pushLog s msgStartLock).calls = s.calls := rfl
  cases v1 with
  | some c =>
    refine ⟨Except.ok c, _, [rc1], initiateCommentLock_ok (lockResolve_found h1), ?_, ?_, ?_⟩
    · simp [pushLog, hc1, hcalls0]
    · simp [readCount, hrc1]
    · simp [createCount, read_not_create hrc1]
  | none =>
    obtain ⟨v2, s2, rc2, h2, hrc2, hc2, _, _⟩ := readComment_total ctx
      (pushSleep (pushLog s1 (msgWaiting (ctx.delayFactor * 100))) (ctx.delayFactor * 100))
    have hc2' : s2.calls = s.calls ++ [rc1, rc2] := by
      simp [hc2, pushSleep, pushLog, hc1, hcalls0]
    cases v2 with
    | some c =>
      refine ⟨Except.ok c, _, [rc1, rc2], initiateCommentLock_ok (lockResolve_second h1 h2), ?_, ?_, ?_⟩
      · simp [pushLog, hc2']
      · simp [readCount, hrc1, hrc2]
      · simp [createCount, read_not_create hrc1, read_not_create hrc2]
    | none =>
      obtain ⟨r3, s3, h3, hc3, _, _⟩ := createComment_total ctx (gib none)
        (pushLog s2 msgAfterDelay)
      have hlr : lockResolve ctx gib (pushLog s msgStartLock) = (r3, s3) := by
        rw [lockResolve_create h1 h2, h3]
      have hc3' : s3.calls = s.calls ++ [rc1, rc2, StoreCall.create ctx.issueNumber (gib none)] := by
        simp [hc3, pushLog, hc2']
      cases r3 with
      | ok c =>
        refine ⟨Except.ok c, _, [rc1, rc2, StoreCall.create ctx.issueNumber (gib none)],
          initiateCommentLock_ok hlr, ?_, ?_, ?_⟩
        · simp [pushLog, hc3']
        · simp [readCount, List.filter_cons, hrc1, hrc2, isReadCall_create]
        · simp [createCount, List.filter_cons, read_not_create hrc1, read_not_create hrc2, isCreateCall_create]
      | error e =>
        refine ⟨Except.error e, s3, [rc1, rc2, StoreCall.create ctx.issueNumber (gib none)],
          initiateCommentLock_error hlr, hc3', ?_, ?_⟩
        · simp [readCount, List.filter_cons, hrc1, hrc2, isReadCall_create]
        · simp [createCount, List.filter_cons, read_not_create hrc1, read_not_create hrc2, isCreateCall_create]

/-- When the store's update throws, the adopted-comment path issues exactly
the conditional-footer update body followed by the fallback create with the
unconditional-footer body `getCommentBody(null) + context.footer`, and
still returns normally. -/
theorem postUpdatePhase_updateFail {ctx : CommentContext} {gcb : Option Comment → String}
    {comment : Comment} {s : Sys} {e : String} {rest : List (Except String Unit)}
    (h : s.oracle.updateR = Except.error e :: rest) :
    ∃ s', postUpdatePhase ctx gcb comment s = (Except.ok (), s') ∧
      s'.calls = s.calls ++
        [StoreCall.update comment.id (computeUpdateBody ctx (gcb (some comment))),
         StoreCall.create ctx.issueNumber (gcb none ++ ctx.footer)] := by
  simp only [postUpdatePhase, M.bind_eq]
  rw [show ∀ k : Unit → M Unit, M.bind (M.modifyS fun s => { s with ctxId := some comment.id }) k s =
    k () { s with ctxId := some comment.id } from fun k => rfl]
  have h1 : Sys.ctxId { s with ctxId := some comment.id } = some comment.id := rfl
  have h2 : ({ s with ctxId := some comment.id } : Sys).oracle.updateR = Except.error e :: rest := h
  have hu := @updateComment_some_error ctx (computeUpdateBody ctx (gcb (some comment)))
    { s with ctxId := some comment.id } comment.id e rest h1 h2
  have hbody : M.bind (updateComment ctx (computeUpdateBody ctx (gcb (some comment))))
      (fun x => M.pure true) { s with ctxId := some comment.id } =
      (Except.error e, popUpdate (pushCall (pushLog { s with ctxId := some comment.id }
        (msgUpdatingBody comment.id))
        (StoreCall.update comment.id (computeUpdateBody ctx (gcb (some comment)))))) := by
    rw [M.bind_error hu]
  have htry : M.tryCatch (M.bind (updateComment ctx (computeUpdateBody ctx (gcb (some comment))))
      (fun x => M.pure true))
      (fun e => M.bind (logEv (msgErrUpdating e)) fun x =>
        M.bind (logEv (LogEvent.debug e)) fun x => M.pure false)
      { s with ctxId := some comment.id } =
      (Except.ok false, pushLog (pushLog (popUpdate (pushCall
        (pushLog { s with ctxId := some comment.id } (msgUpdatingBody comment.id))
        (StoreCall.update comment.id (computeUpdateBody ctx (gcb (some comment))))))
        (msgErrUpdating e)) (LogEvent.debug e)) := by
    rw [M.tryCatch_error hbody]
    simp [M.bind_eq, M.bind, logEv, M.pure]
  rw [M.bind_ok htry]
  simp only [Bool.false_eq_true, if_false]
  obtain ⟨rc, s2, hc, hc2, _, _⟩ := createComment_total ctx (gcb none ++ ctx.footer)
    (pushLog (pushLog (popUpdate (pushCall
      (pushLog { s with ctxId := some comment.id } (msgUpdatingBody comment.id))
      (StoreCall.update comment.id (computeUpdateBody ctx (gcb (some comment))))))
      (msgErrUpdating e)) (LogEvent.debug e))
  cases rc with
  | ok c =>
    have hcb : M.bind (createComment ctx (gcb none ++ ctx.footer)) (fun x => M.pure ())
        (pushLog (pushLog (popUpdate (pushCall
          (pushLog { s with ctxId := some comment.id } (msgUpdatingBody comment.id))
          (StoreCall.update comment.id (computeUpdateBody ctx (gcb (some comment))))))
          (msgErrUpdating e)) (LogEvent.debug e)) = (Except.ok (), s2) := by
      rw [M.bind_ok hc]; rfl
    refine ⟨s2, ?_, ?_⟩
    · rw [M.tryCatch_ok hcb]
    · simp [hc2, pushLog, pushCall, popUpdate]
  | error e2 =>
    have hcb : M.bind (createComment ctx (gcb none ++ ctx.footer)) (fun x => M.pure ())
        (pushLog (pushLog (popUpdate (pushCall
          (pushLog { s with ctxId := some comment.id } (msgUpdatingBody comment.id))
          (StoreCall.update comment.id (computeUpdateBody ctx (gcb (some comment))))))
          (msgErrUpdating e)) (LogEvent.debug e)) = (Except.error e2, s2) := by
      rw [M.bind_error hc]
    refine ⟨pushLog (pushLog s2 (msgErrCreating e2)) (LogEvent.debug e2), ?_, ?_⟩
    · rw [M.tryCatch_error hcb]
      simp [M.bind_eq, M.bind, logEv, M.pure]
    · simp [pushLog, hc2, pushCall, popUpdate]

/-- When the lock phase succeeds, the orchestrator continues with the
post-update phase in the lock phase's final state. -/
theorem postOrUpdate_ok {ctx : CommentContext} {gcb : Option Comment → String}
    {s s1 : Sys} {c : Comment}
    (h : acquireCommentLock ctx gcb (pushLog s msgUpdatingPR) = (Except.ok c, s1)) :
    postOrUpdateComment ctx gcb s = postUpdatePhase ctx gcb c s1 := by
  simp only [postOrUpdateComment, M.bind_eq]
  rw [show ∀ k : Unit → M Unit, M.bind (logEv msgUpdatingPR) k s =
    k () (pushLog s msgUpdatingPR) from fun k => rfl]
  rw [M.bind_ok h]

/-- When the lock phase throws (a create failure during lock acquisition),
the orchestrator propagates the exception to its caller. -/
theorem postOrUpdate_error {ctx : CommentContext} {gcb : Option Comment → String}
    {s s1 : Sys} {e : String}
    (h : acquireCommentLock ctx gcb (pushLog s msgUpdatingPR) = (Except.error e, s1)) :
    postOrUpdateComment ctx gcb s = (Except.error e, s1) := by
  simp only [postOrUpdateComment, M.bind_eq]
  rw [show ∀ k : Unit → M Unit, M.bind (logEv msgUpdatingPR) k s =
    k () (pushLog s msgUpdatingPR) from fun k => rfl]
  rw [M.bind_error h]

/-- `charsContain` decides contiguous-infix containment. -/
theorem charsContain_iff (pat l : List Char) : charsContain pat l = true ↔ pat <:+: l := by
  induction l with
  | nil => simp [charsContain, List.isEmpty_iff, List.infix_nil]
  | cons c rest ih =>
    simp [charsContain, Bool.or_eq_true, List.isPrefixOf_iff_prefix, ih, List.infix_cons_iff]

/-- `jsIncludes` decides substring containment of the pattern's characters. -/
theorem jsIncludes_iff (s pat : String) : jsIncludes s pat = true ↔ pat.data <:+: s.data :=
  charsContain_iff pat.data s.data

theorem getLast?_cons_or {α : Type} (a : α) (xs : List α) :
    (a :: xs).getLast? = xs.getLast?.or (some a) := by
  induction xs generalizing a with
  | nil => rfl
  | cons b t ih =>
    rw [List.getLast?_cons_cons, ih b, Option.or_assoc]
    rfl

/-- Scanning a list from its last element to its first for the first match
selects the last matching element of the list. -/
theorem find?_reverse_eq_getLast_filter {α : Type} (p : α → Bool) (l : List α) :
    l.reverse.find? p = (l.filter p).getLast? := by
  induction l with
  | nil => rfl
  | cons a t ih =>
    rw [List.reverse_cons, List.find?_append, ih, List.filter_cons]
    by_cases hp : p a
    · rw [if_pos hp, getLast?_cons_or]
      have : List.find? p [a] = some a := by simp [List.find?_cons, hp]
      rw [this]
    · rw [if_neg hp]
      have : List.find? p [a] = none := by simp [List.find?_cons, hp]
      rw [this, Option.or_none]

/-- With a set `context.id`, `updateComment` always issues exactly one
update call for that id with the given body, whatever the store answers. -/
theorem updateComment_some_total {ctx : CommentContext} {b : String} {s : Sys} {i : Nat}
    (h1 : s.ctxId = some i) :
    ∃ r s', updateComment ctx b s = (r, s') ∧ s'.calls = s.calls ++ [StoreCall.update i b] := by
  cases hg : s.oracle.updateR.head? with
  | none =>
    refine ⟨Except.error "no response",
      popUpdate (pushCall (pushLog s (msgUpdatingBody i)) (StoreCall.update i b)), ?_, ?_⟩ <;>
      simp [updateComment, M.bind_eq, M.bind, M.get, h1, logEv, ghUpdateComment,
        pushLog, pushCall, popUpdate, hg]
  | some r =>
    cases r with
    | ok a =>
      refine ⟨Except.ok (),
        pushLog (popUpdate (pushCall (pushLog s (msgUpdatingBody i)) (StoreCall.update i b)))
          (msgUpdatedBody b), ?_, ?_⟩ <;>
        simp [updateComment, M.bind_eq, M.bind, M.get, h1, logEv, ghUpdateComment,
          pushLog, pushCall, popUpdate, hg]
    | error e =>
      refine ⟨Except.error e,
        popUpdate (pushCall (pushLog s (msgUpdatingBody i)) (StoreCall.update i b)), ?_, ?_⟩ <;>
        simp [updateComment, M.bind_eq, M.bind, M.get, h1, logEv, ghUpdateComment,
          pushLog, pushCall, popUpdate, hg]

/-! ## Claims -/

/-- C4: the match predicate of a context built by `createCommentContext`
holds exactly of records whose author `user.type` is `"Bot"` and whose body
contains the trimmed footer text as a contiguous substring; in particular a
record by any other author kind is never matched, whatever its body. -/
theorem claim_C4 (gctx : GitHubActionContext) (wf : WorkflowRunInfo) (c : Comment) :
    (matchesComment (createCommentContext gctx wf) c = true ↔
      c.userType = "Bot" ∧
        (jsTrim (createCommentContext gctx wf).footer).data <:+: c.body.data) ∧
    (c.userType ≠ "Bot" → matchesComment (createCommentContext gctx wf) c = false) := by
  constructor
  · simp [matchesComment, Bool.and_eq_true, beq_iff_eq, jsIncludes_iff]
  · intro h
    have hb : (c.userType == "Bot") = false := by
      rw [beq_eq_false_iff_ne]; exact h
    simp [matchesComment, hb]

/-- C4 witness: a human-authored comment whose body is exactly the footer
text is not matched. -/
theorem claim_C4_witness : matchesComment (createCommentContext exG exW) exHumanFooter = false :=
  (claim_C4 exG exW exHumanFooter).2 (by decide)

/-- C5: with no resolved id, `readComment` fetches exactly one listing page,
consumes exactly one listing response, and returns the first match of the
backwards scan, which is the last (most recently created, in
most-recent-last page order) matching element; absent when nothing
matches. -/
theorem claim_C5 (ctx : CommentContext) (s : Sys) (l : List Comment)
    {rest : List (Except String (List Comment))}
    (h1 : s.ctxId = none) (h2 : s.oracle.listR = Except.ok l :: rest) :
    ∃ s', readComment ctx s = (Except.ok ((l.filter (matchesComment ctx)).getLast?), s') ∧
      s'.calls = s.calls ++ [StoreCall.list ctx.issueNumber] ∧
      s'.oracle.listR = rest ∧
      l.reverse.find? (matchesComment ctx) = (l.filter (matchesComment ctx)).getLast? := by
  have ht : truthyId s.ctxId = false := by rw [h1]; rfl
  obtain ⟨lg, hlg⟩ := readComment_list_ok ht h2
  rw [find?_reverse_eq_getLast_filter] at hlg
  refine ⟨_, hlg, ?_, ?_, find?_reverse_eq_getLast_filter (matchesComment ctx) l⟩
  · simp [pushLog, pushCall, popList]
  · simp [pushLog, pushCall, popList, h2]

/-- C5 witness: among two matching bot comments the later (most recent) one
is selected. -/
theorem claim_C5_witness :
    ∃ s', readComment exCtx w5sys =
      (Except.ok (([exBot, exBot2].filter (matchesComment exCtx)).getLast?), s') ∧
      s'.calls = w5sys.calls ++ [StoreCall.list exCtx.issueNumber] ∧
      s'.oracle.listR = [] ∧
      [exBot, exBot2].reverse.find? (matchesComment exCtx) =
        ([exBot, exBot2].filter (matchesComment exCtx)).getLast? :=
  claim_C5 exCtx w5sys [exBot, exBot2] rfl rfl

/-- C6: `readComment` never propagates an exception; when the by-id fetch
or the listing fetch throws, it logs the warning and returns absent. -/
theorem claim_C6 (ctx : CommentContext) (s : Sys) :
    (∃ v s', readComment ctx s = (Except.ok v, s')) ∧
    (∀ i e rest, s.ctxId = some i → i ≠ 0 → s.oracle.getByIdR = Except.error e :: rest →
      ∃ s', readComment ctx s = (Except.ok none, s') ∧ msgReadError e ∈ s'.log) ∧
    (∀ e rest, truthyId s.ctxId = false → s.oracle.listR = Except.error e :: rest →
      ∃ s', readComment ctx s = (Except.ok none, s') ∧ msgReadError e ∈ s'.log) := by
  refine ⟨?_, ?_, ?_⟩
  · obtain ⟨v, s', rc, h, _⟩ := readComment_total ctx s
    exact ⟨v, s', h⟩
  · intro i e rest h1 h2 h3
    refine ⟨_, readComment_byId_error h1 h2 h3, ?_⟩
    simp [pushLog]
  · intro e rest h1 h2
    refine ⟨_, readComment_list_error h1 h2, ?_⟩
    simp [pushLog]

/-- C6 witness: a throwing by-id fetch is folded into absent with the
warning logged. -/
theorem claim_C6_witness :
    ∃ s', readComment exCtx w6sys = (Except.ok none, s') ∧ msgReadError "boom" ∈ s'.log :=
  (claim_C6 exCtx w6sys).2.1 9 "boom" [] rfl (by decide) rfl

/-- C7: with a null resolved id, `updateComment` throws its precondition
error with the state untouched (no store call of any kind, in particular no
create); with a set resolved id it issues exactly one full-body update call
for that id. -/
theorem claim_C7 (ctx : CommentContext) (b : String) (s : Sys) :
    (s.ctxId = none →
      updateComment ctx b s = (Except.error "Cannot update comment if \"context.id\" is null", s)) ∧
    (∀ i, s.ctxId = some i →
      ∃ r s', updateComment ctx b s = (r, s') ∧ s'.calls = s.calls ++ [StoreCall.update i b]) := by
  constructor
  · intro h
    exact updateComment_noId h
  · intro i h
    exact updateComment_some_total h

/-- C7 witness: the precondition error on a null id, and the single update
call on a set id. -/
theorem claim_C7_witness :
    updateComment exCtx "B" w7none =
      (Except.error "Cannot update comment if \"context.id\" is null", w7none) ∧
    ∃ r s', updateComment exCtx "B" w7some = (r, s') ∧
      s'.calls = w7some.calls ++ [StoreCall.update 7 "B"] :=
  ⟨(claim_C7 exCtx "B" w7none).1 rfl, (claim_C7 exCtx "B" w7some).2 7 rfl⟩

/-- C9 counterexample: with the resolved id set to `0` the claim fails: the
locate call ignores the ready by-id response, issues a listing call instead,
and returns absent rather than the record the by-id fetch would yield. -/
theorem claim_C9_counterexample :
    c9sys.ctxId = some 0 ∧
    (readComment exCtx c9sys).1 = Except.ok none ∧
    (readComment exCtx c9sys).2.calls = [StoreCall.list 5] := by decide

/-- C9 (amended): when the resolved id is set to a nonzero id (the JS
truthiness test `if (context.id)`), `readComment` returns whatever comment
the by-id fetch yields, with no match-predicate filtering: the comment `c`
here is arbitrary, in particular it may be human-authored or lack the
footer marker. -/
theorem claim_C9 (ctx : CommentContext) (s : Sys) (i : Nat) (c : Comment)
    {rest : List (Except String Comment)}
    (h1 : s.ctxId = some i) (h2 : i ≠ 0) (h3 : s.oracle.getByIdR = Except.ok c :: rest) :
    readComment ctx s =
      (Except.ok (some c), popGetById (pushCall (pushLog s (msgReading i)) (StoreCall.getById i))) :=
  readComment_byId_ok h1 h2 h3

/-- C9 witness: a human-authored comment fetched by id is returned as the
managed record. -/
theorem claim_C9_witness :
    readComment exCtx w9sys =
      (Except.ok (some exHuman),
        popGetById (pushCall (pushLog w9sys (msgReading 7)) (StoreCall.getById 7))) :=
  claim_C9 exCtx w9sys 7 exHuman rfl (by decide) rfl

/-- C1 counterexample: with both listings empty and a throwing create, the
exception of the create performed during lock acquisition propagates out of
`postOrUpdateComment` to its caller. -/
theorem claim_C1_counterexample :
    (postOrUpdateComment exCtx (bodyFn "B") c1sys).1 = Except.error "boom" := by decide

/-- C1 (amended): `postOrUpdateComment` returns normally whenever the lock
acquisition phase returns a record — errors of the update and of the
fallback create are swallowed; only a create failure inside the staggered
lock acquisition can propagate. -/
theorem claim_C1 (ctx : CommentContext) (gcb : Option Comment → String) (s : Sys)
    {c : Comment} {s1 : Sys}
    (h : acquireCommentLock ctx gcb (pushLog s msgUpdatingPR) = (Except.ok c, s1)) :
    ∃ s2, postOrUpdateComment ctx gcb s = (Except.ok (), s2) := by
  obtain ⟨s2, h2⟩ := postUpdatePhase_total ctx gcb c s1
  exact ⟨s2, by rw [postOrUpdate_ok h, h2]⟩

/-- C1 witness: a run whose lock phase adopts an existing comment returns
normally. -/
theorem claim_C1_witness :
    ∃ s2, postOrUpdateComment exCtx (bodyFn "B") w1sys = (Except.ok (), s2) :=
  claim_C1 exCtx (bodyFn "B") w1sys rfl

/-- C2 counterexample: the computed body `"zFOOT"` already contains the
footer marker `"FOOT"`, yet after an update failure the fallback create
writes `"zFOOT" ++ "FOOT"` — the marker is duplicated, refuting the claim
for the fallback-create write path. -/
theorem claim_C2_counterexample :
    jsIncludes "zFOOT" exCtx.footer = true ∧
    (postOrUpdateComment exCtx (bodyFn "zFOOT") c2sys).2.calls =
      [StoreCall.list 5, StoreCall.update 7 "zFOOT", StoreCall.create 5 "zFOOTFOOT"] := by
  decide

/-- C2 (amended): in the update path the footer is appended exactly when the
computed body lacks it (a body containing it is written unchanged), but the
fallback create after an update failure appends the footer unconditionally
to `getCommentBody(null)`, duplicating it when that body already contains
it. -/
theorem claim_C2 (ctx : CommentContext) (b : String) (gcb : Option Comment → String)
    (comment : Comment) (s : Sys) {e : String} {rest : List (Except String Unit)}
    (h : s.oracle.updateR = Except.error e :: rest) :
    (jsIncludes b ctx.footer = true → computeUpdateBody ctx b = b) ∧
    (jsIncludes b ctx.footer = false → computeUpdateBody ctx b = b ++ ctx.footer) ∧
    (∃ s', postUpdatePhase ctx gcb comment s = (Except.ok (), s') ∧
      s'.calls = s.calls ++
        [StoreCall.update comment.id (computeUpdateBody ctx (gcb (some comment))),
         StoreCall.create ctx.issueNumber (gcb none ++ ctx.footer)]) := by
  refine ⟨?_, ?_, postUpdatePhase_updateFail h⟩
  · intro hb; simp [computeUpdateBody, hb]
  · intro hb; simp [computeUpdateBody, hb]

/-- C2 witness: a body containing the footer is left unchanged, one lacking
it gets the footer appended once. -/
theorem claim_C2_witness :
    computeUpdateBody exCtx "zFOOT" = "zFOOT" ∧
    computeUpdateBody exCtx "z" = "z" ++ exCtx.footer :=
  ⟨(claim_C2 exCtx "zFOOT" (bodyFn "z") exBot c2wsys rfl).1 (by decide),
   (claim_C2 exCtx "z" (bodyFn "z") exBot c2wsys rfl).2.1 (by decide)⟩

/-- C3: the staggered creation protocol issues at most two locate reads and
at most one create, whatever the store does; a first-locate hit is adopted
with no suspension and a single read call; a second-locate hit is adopted
after exactly one suspension of `delayFactor * 100` ms and two read calls;
only when both locates return absent is a create issued, with body
`getInitialBody(null)`, and the created record is adopted with its id
recorded. -/
theorem claim_C3 (ctx : CommentContext) (gib : Option Comment → String) (s : Sys) :
    (∃ r s' δ, initiateCommentLock ctx gib s = (r, s') ∧ s'.calls = s.calls ++ δ ∧
      readCount δ ≤ 2 ∧ createCount δ ≤ 1) ∧
    (∀ c s1, readComment ctx (pushLog s msgStartLock) = (Except.ok (some c), s1) →
      ∃ s', initiateCommentLock ctx gib s = (Except.ok c, s') ∧
        s'.sleeps = s.sleeps ∧ s'.ctxId = some c.id ∧
        ∃ rc, isReadCall rc = true ∧ s'.calls = s.calls ++ [rc]) ∧
    (∀ s1 c s2, readComment ctx (pushLog s msgStartLock) = (Except.ok none, s1) →
      readComment ctx (pushSleep (pushLog s1 (msgWaiting (ctx.delayFactor * 100)))
        (ctx.delayFactor * 100)) = (Except.ok (some c), s2) →
      ∃ s', initiateCommentLock ctx gib s = (Except.ok c, s') ∧
        s'.sleeps = s.sleeps ++ [ctx.delayFactor * 100] ∧ s'.ctxId = some c.id ∧
        ∃ rc1 rc2, isReadCall rc1 = true ∧ isReadCall rc2 = true ∧
          s'.calls = s.calls ++ [rc1, rc2]) ∧
    (∀ s1 s2, readComment ctx (pushLog s msgStartLock) = (Except.ok none, s1) →
      readComment ctx (pushSleep (pushLog s1 (msgWaiting (ctx.delayFactor * 100)))
        (ctx.delayFactor * 100)) = (Except.ok none, s2) →
      ∀ c crest, s2.oracle.createR = Except.ok c :: crest →
      ∃ s', initiateCommentLock ctx gib s = (Except.ok c, s') ∧
        s'.sleeps = s.sleeps ++ [ctx.delayFactor * 100] ∧ s'.ctxId = some c.id ∧
        ∃ rc1 rc2, isReadCall rc1 = true ∧ isReadCall rc2 = true ∧
          s'.calls = s.calls ++ [rc1, rc2, StoreCall.create ctx.issueNumber (gib none)]) := by
  refine ⟨initiateCommentLock_total ctx gib s, ?_, ?_, ?_⟩
  · intro c s1 h
    obtain ⟨v, sr, rc, heq, hrc, hcalls, hsleeps, _⟩ := readComment_total ctx (pushLog s msgStartLock)
    have hpair := heq.symm.trans h
    injection hpair with hv hs
    injection hv with hv2
    subst hv2
    subst hs
    refine ⟨_, initiateCommentLock_ok (lockResolve_found h), ?_, ?_, rc, hrc, ?_⟩
    · simp [pushLog, hsleeps]
    · rfl
    · simp [pushLog, hcalls]
  · intro s1 c s2 h1 h2
    obtain ⟨v1, sr1, rc1, heq1, hrc1, hcalls1, hsleeps1, _⟩ :=
      readComment_total ctx (pushLog s msgStartLock)
    have hp1 := heq1.symm.trans h1
    injection hp1 with hv1 hs1
    have hcalls1b : s1.calls = (pushLog s msgStartLock).calls ++ [rc1] := hs1 ▸ hcalls1
    have hsleeps1b : s1.sleeps = (pushLog s msgStartLock).sleeps := hs1 ▸ hsleeps1
    obtain ⟨v2, sr2, rc2, heq2, hrc2, hcalls2, hsleeps2, _⟩ := readComment_total ctx
      (pushSleep (pushLog s1 (msgWaiting (ctx.delayFactor * 100))) (ctx.delayFactor * 100))
    have hp2 := heq2.symm.trans h2
    injection hp2 with hv2 hs2
    have hcalls2b : s2.calls = (pushSleep (pushLog s1 (msgWaiting (ctx.delayFactor * 100)))
      (ctx.delayFactor * 100)).calls ++ [rc2] := hs2 ▸ hcalls2
    have hsleeps2b : s2.sleeps = (pushSleep (pushLog s1 (msgWaiting (ctx.delayFactor * 100)))
      (ctx.delayFactor * 100)).sleeps := hs2 ▸ hsleeps2
    refine ⟨_, initiateCommentLock_ok (lockResolve_second h1 h2), ?_, ?_, rc1, rc2, hrc1, hrc2, ?_⟩
    · simp [pushLog, pushSleep, hsleeps2b, hsleeps1b]
    · rfl
    · simp [pushLog, pushSleep, hcalls2b, hcalls1b]
  · intro s1 s2 h1 h2 c crest hc
    obtain ⟨v1, sr1, rc1, heq1, hrc1, hcalls1, hsleeps1, _⟩ :=
      readComment_total ctx (pushLog s msgStartLock)
    have hp1 := heq1.symm.trans h1
    injection hp1 with hv1 hs1
    have hcalls1b : s1.calls = (pushLog s msgStartLock).calls ++ [rc1] := hs1 ▸ hcalls1
    have hsleeps1b : s1.sleeps = (pushLog s msgStartLock).sleeps := hs1 ▸ hsleeps1
    obtain ⟨v2, sr2, rc2, heq2, hrc2, hcalls2, hsleeps2, _⟩ := readComment_total ctx
      (pushSleep (pushLog s1 (msgWaiting (ctx.delayFactor * 100))) (ctx.delayFactor * 100))
    have hp2 := heq2.symm.trans h2
    injection hp2 with hv2 hs2
    have hcalls2b : s2.calls = (pushSleep (pushLog s1 (msgWaiting (ctx.delayFactor * 100)))
      (ctx.delayFactor * 100)).calls ++ [rc2] := hs2 ▸ hcalls2
    have hsleeps2b : s2.sleeps = (pushSleep (pushLog s1 (msgWaiting (ctx.delayFactor * 100)))
      (ctx.delayFactor * 100)).sleeps := hs2 ▸ hsleeps2
    have hcc : createComment ctx (gib none) (pushLog s2 msgAfterDelay) =
        (Except.ok c, popCreate (pushCall (pushLog (pushLog (pushLog s2 msgAfterDelay)
          msgCreatingNew) (msgNewBody (gib none)))
          (StoreCall.create ctx.issueNumber (gib none)))) := createComment_ok hc
    have hlr : lockResolve ctx gib (pushLog s msgStartLock) =
        (Except.ok c, popCreate (pushCall (pushLog (pushLog (pushLog s2 msgAfterDelay)
          msgCreatingNew) (msgNewBody (gib none)))
          (StoreCall.create ctx.issueNumber (gib none)))) := by
      rw [lockResolve_create h1 h2, hcc]
    refine ⟨_, initiateCommentLock_ok hlr, ?_, ?_, rc1, rc2, hrc1, hrc2, ?_⟩
    · simp [pushLog, pushCall, pushSleep, popCreate, hsleeps2b, hsleeps1b]
    · rfl
    · simp [pushLog, pushCall, pushSleep, popCreate, hcalls2b, hcalls1b]

/-- C3 witness: with both listing pages empty and a successful create, the
protocol sleeps once for `delayFactor * 100` ms, issues two reads and one
create with the initial body, and adopts the created comment. -/
theorem claim_C3_witness :
    ∃ s', initiateCommentLock exCtx (bodyFn "init") w3sys = (Except.ok exBot, s') ∧
      s'.sleeps = w3sys.sleeps ++ [exCtx.delayFactor * 100] ∧ s'.ctxId = some exBot.id ∧
      ∃ rc1 rc2, isReadCall rc1 = true ∧ isReadCall rc2 = true ∧
        s'.calls = w3sys.calls ++ [rc1, rc2, StoreCall.create exCtx.issueNumber (bodyFn "init" none)] :=
  (claim_C3 exCtx (bodyFn "init") w3sys).2.2.2 _ _ rfl rfl exBot [] rfl

/-- C8 counterexample: the store's create yields a comment with id `0`; the
protocol sets the resolved id to `0` (it is set), yet the next locate
issues a listing call rather than a by-id fetch — the claim's second half
fails for this set id. -/
theorem claim_C8_counterexample :
    (initiateCommentLock exCtx (bodyFn "init") c8sys).2.ctxId = some 0 ∧
    (readComment exCtx (initiateCommentLock exCtx (bodyFn "init") c8sys).2).2.calls =
      (initiateCommentLock exCtx (bodyFn "init") c8sys).2.calls ++ [StoreCall.list 5] := by
  decide

/-- With a nonzero resolved id, `readComment` issues exactly the one by-id
fetch for that id — no listing scan — whatever the store answers (success,
throw, or exhausted stream), and returns the fetched comment when the
response succeeds. -/
theorem readComment_byId_total {ctx : CommentContext} {s : Sys} {i : Nat}
    (h1 : s.ctxId = some i) (h2 : i ≠ 0) :
    ∃ v s', readComment ctx s = (Except.ok v, s') ∧
      s'.calls = s.calls ++ [StoreCall.getById i] ∧
      (∀ c rest, s.oracle.getByIdR = Except.ok c :: rest → v = some c) := by
  cases hg : s.oracle.getByIdR with
  | nil =>
    have ht : truthyId s.ctxId = true := by simp [truthyId, h1, h2]
    have hi : s.ctxId.getD 0 = i := by rw [h1]; rfl
    have hgh : s.oracle.getByIdR.head? = none := by rw [hg]; rfl
    refine ⟨none, pushLog (pushLog (popGetById (pushCall (pushLog s (msgReading i))
      (StoreCall.getById i))) (msgReadError "no response")) (LogEvent.debug "no response"),
      ?_, ?_, ?_⟩
    · simp [readComment, M.tryCatch, M.bind_eq, M.bind, M.get, M.pure, logEv,
        ghGetComment, pushLog, pushCall, popGetById, ht, hgh, hi]
    · simp [pushLog, pushCall, popGetById]
    · intro c rest hcc
      exact List.noConfusion hcc
  | cons r rest0 =>
    cases r with
    | ok c0 =>
      refine ⟨some c0, _, readComment_byId_ok h1 h2 hg, ?_, ?_⟩
      · simp [pushLog, pushCall, popGetById]
      · intro c rest hcc
        injection hcc with hr htail
        injection hr with hc
        rw [hc]
    | error e =>
      refine ⟨none, _, readComment_byId_error h1 h2 hg, ?_, ?_⟩
      · simp [pushLog, pushCall, popGetById]
      · intro c rest hcc
        injection hcc with hr htail
        exact Except.noConfusion hr

/-- C8 (amended): whenever the protocol returns a record the resolved id is
set to that record's id; and once the resolved id is set to a nonzero id
(the JS truthiness test `if (context.id)`), every subsequent locate issues
exactly one by-id fetch for that id and no listing scan, whatever the store
answers; when the fetch succeeds, the fetched record is the one returned. -/
theorem claim_C8 (ctx : CommentContext) (gib : Option Comment → String) (s : Sys) :
    (∀ c s', initiateCommentLock ctx gib s = (Except.ok c, s') → s'.ctxId = some c.id) ∧
    (∀ i, s.ctxId = some i → i ≠ 0 →
      ∃ v s', readComment ctx s = (Except.ok v, s') ∧
        s'.calls = s.calls ++ [StoreCall.getById i] ∧
        (∀ c rest, s.oracle.getByIdR = Except.ok c :: rest → v = some c)) := by
  constructor
  · intro c s' h
    rcases hlr : lockResolve ctx gib (pushLog s msgStartLock) with ⟨r, s1⟩
    cases r with
    | ok c2 =>
      have heq := (initiateCommentLock_ok hlr).symm.trans h
      injection heq with he hs
      injection he with hc
      subst hc
      rw [← hs]
    | error e =>
      have heq := (initiateCommentLock_error hlr).symm.trans h
      injection heq with he hs
      exact Except.noConfusion he
  · intro i h1 h2
    exact readComment_byId_total h1 h2

/-- C8 witness: adoption sets the resolved id, and a locate with resolved
id 7 issues the single by-id fetch and returns the fetched comment. -/
theorem claim_C8_witness :
    (initiateCommentLock exCtx (bodyFn "init") w8sys).2.ctxId = some 7 ∧
    ∃ v s', readComment exCtx w9sys = (Except.ok v, s') ∧
      s'.calls = w9sys.calls ++ [StoreCall.getById 7] ∧
      (∀ c rest, w9sys.oracle.getByIdR = Except.ok c :: rest → v = some c) := by
  constructor
  · exact (claim_C8 exCtx (bodyFn "init") w8sys).1 exBot
      (initiateCommentLock exCtx (bodyFn "init") w8sys).2 (by decide)
  · exact (claim_C8 exCtx (bodyFn "init") w9sys).2 7 rfl (by decide)

/-- C10: when both locates return absent, the create inside the protocol is
issued with the body `getInitialBody(null)` verbatim — no footer appended in
this path; and a record whose body lacks the trimmed footer marker never
satisfies the match predicate, whatever its author kind. -/
theorem claim_C10 (ctx : CommentContext) (gib : Option Comment → String) (s : Sys) :
    (∀ s1 s2, readComment ctx (pushLog s msgStartLock) = (Except.ok none, s1) →
      readComment ctx (pushSleep (pushLog s1 (msgWaiting (ctx.delayFactor * 100)))
        (ctx.delayFactor * 100)) = (Except.ok none, s2) →
      ∃ r s', initiateCommentLock ctx gib s = (r, s') ∧
        s'.calls = s2.calls ++ [StoreCall.create ctx.issueNumber (gib none)]) ∧
    (jsIncludes (gib none) (jsTrim ctx.footer) = false →
      ∀ i t, matchesComment ctx { id := i, body := gib none, userType := t } = false) := by
  constructor
  · intro s1 s2 h1 h2
    obtain ⟨r3, s3, h3, hc3, _, _⟩ := createComment_total ctx (gib none) (pushLog s2 msgAfterDelay)
    have hlr : lockResolve ctx gib (pushLog s msgStartLock) = (r3, s3) := by
      rw [lockResolve_create h1 h2, h3]
    cases r3 with
    | ok c =>
      refine ⟨Except.ok c, _, initiateCommentLock_ok hlr, ?_⟩
      simp [pushLog, hc3]
    | error e =>
      refine ⟨Except.error e, s3, initiateCommentLock_error hlr, ?_⟩
      simp [hc3, pushLog]
  · intro h i t
    simp [matchesComment, h]

/-- C10 witness: the create body is the initial body verbatim, and a
bot-authored record with that body (lacking the marker) is not matched. -/
theorem claim_C10_witness :
    (∃ r s', initiateCommentLock exCtx (bodyFn "init") w3sys = (r, s') ∧
      s'.calls = [StoreCall.list 5, StoreCall.list 5] ++ [StoreCall.create 5 "init"]) ∧
    matchesComment exCtx { id := 7, body := "init", userType := "Bot" } = false :=
  ⟨(claim_C10 exCtx (bodyFn "init") w3sys).1 _ _ rfl rfl,
   (claim_C10 exCtx (bodyFn "init") w3sys).2 (by decide) 7 "Bot"⟩
